import Mathlib

/-!
# Verification of the feed-ingestion / interest-matching engine

Shallow embedding of the matching core of `src-tauri/src/services/rss.rs`
(plus the command layer in `src-tauri/src/commands/rss.rs`) of the
whenThen repository, together with proofs of the spec's claims about it.

Modelling conventions, used throughout:
* Rust `String` is Lean `String`; Rust `u64`/`u32` counters are `Nat`
  (with explicit saturation where the code saturates).
* RFC3339 timestamps are modelled as `Nat` clock values: the code never
  branches on the *content* of a timestamp inside one poll, it only
  stores them.
* The `regex` crate is an external library; a regex evaluation
  `Regex::new(pat).map(|re| re.is_match(text)).unwrap_or(false)` is
  modelled as an oracle parameter `rm : String → String → Bool`
  (pattern → text → bool).  No claim depends on the regex engine itself.
* Network fetches (the Fetch collaborator) are inputs: a
  `FetchFeedResult` for the standard path, an
  `Interest → Option (List ParsedFeedItem)` map for the per-interest
  placeholder path (`none` models a fetch error, which the code logs
  and skips).
* `HashMap`s are modelled as association lists, `HashSet`s as lists;
  the code only ever inserts a key it has just checked to be absent
  under the same lock, so list-cons insertion is faithful.
* Log statements and UI event emission (`app_handle.emit`) are
  side-effect-free observers and are dropped.
-/

namespace WhenThen

/-! ## Data model

The record declarations in `src-tauri/src/models/rss.rs` predate the
fields referenced by `services/rss.rs` (e.g. `use_guid_dedup`,
`smart_episode_filter`, the `Wildcard` filter type).  Modelled from the
spec: the field lists below follow spec §3 together with the service
code's field usage, which agree. -/

/-- Filter kinds, exactly the variants matched in `evaluate_single_filter`. -/
inductive FilterType where
  | MustContain
  | MustNotContain
  | Regex
  | Wildcard
  | SizeRange
deriving DecidableEq, Repr

/-- `FeedFilter {type, value, enabled}`. -/
structure FeedFilter where
  filter_type : FilterType
  value : String
  enabled : Bool
deriving DecidableEq, Repr

/-- `FilterLogic::{And, Or}`. -/
inductive FilterLogic where
  | And
  | Or
deriving DecidableEq, Repr

/-- Modelled from the spec: `Interest` record of §3 (fields as used by
`services/rss.rs`; `name` is the search-term fallback). -/
structure Interest where
  id : String
  name : String
  enabled : Bool
  filters : List FeedFilter
  filter_logic : FilterLogic
  search_term : Option String
  smart_episode_filter : Bool
  download_path : Option String
deriving DecidableEq, Repr

/-- Modelled from the spec: `Source` record of §3 (fields as used by
`services/rss.rs`; timestamps as `Nat` clock values). -/
structure Source where
  id : String
  name : String
  url : String
  enabled : Bool
  check_interval : Option Nat
  last_checked : Option Nat
  next_check_at : Option Nat
  etag : Option String
  last_modified : Option String
  failure_count : Nat
  retry_after : Option Nat
  use_guid_dedup : Bool
deriving DecidableEq, Repr

/-- `ParsedFeedItem`, the normalized view of one feed entry. -/
structure ParsedFeedItem where
  id : String
  guid : String
  title : String
  magnet_uri : Option String
  torrent_url : Option String
  size : Option Nat
  published_date : Option Nat
deriving DecidableEq, Repr

/-- `PendingMatch`.  The random UUID `id` is collaborator-generated
(`uuid::Uuid::new_v4()`); the scheduler never reads it back, so matches
created by the polling model carry the placeholder `""`. -/
structure PendingMatch where
  id : String
  source_id : String
  source_name : String
  interest_id : String
  interest_name : String
  title : String
  magnet_uri : Option String
  torrent_url : Option String
  created_at : Nat
deriving DecidableEq, Repr

/-- Result of `fetch_feed_with_cache`. -/
structure FetchFeedResult where
  items : List ParsedFeedItem
  etag : Option String
  last_modified : Option String
  not_modified : Bool
deriving DecidableEq, Repr

/-- The error categories of `errors.rs` that the RSS paths produce. -/
inductive RssError where
  | notFound (msg : String)
  | invalidInput (msg : String)
  | torrent (msg : String)
deriving DecidableEq, Repr

/-! ## Pure string helpers -/

/-- Rust `str::to_lowercase` (ASCII case folding suffices here). -/
def lowerStr (s : String) : String :=
  String.mk (s.data.map Char.toLower)

/-- Is `p` a contiguous sublist of the second argument?
Models Rust `str::contains` on the char-list view. -/
def subList (p : List Char) : List Char → Bool
  | [] => p.isEmpty
  | c :: t => p.isPrefixOf (c :: t) || subList p t

/-- Rust `haystack.contains(pattern)`. -/
def containsSub (hay pat : String) : Bool :=
  subList pat.data hay.data

/-- Digit accumulator for `parse_u64`. -/
def parseDigitsAux : List Char → Nat → Option Nat
  | [], acc => some acc
  | c :: rest, acc =>
    if c.isDigit then parseDigitsAux rest (acc * 10 + (c.toNat - 48)) else none

/-- Rust `s.parse::<u64>()`: optional leading `+`, one or more digits,
value must fit in `u64`. -/
def parse_u64 (s : String) : Option Nat :=
  let cs :=
    match s.data with
    | '+' :: rest => rest
    | cs => cs
  if cs.isEmpty then none
  else
    match parseDigitsAux cs 0 with
    | some n => if n < 2 ^ 64 then some n else none
    | none => none

/-- Rust `value.split('-')` on the char-list view. -/
def splitOnChar (sep : Char) : List Char → List (List Char)
  | [] => [[]]
  | c :: rest =>
    if c = sep then [] :: splitOnChar sep rest
    else
      match splitOnChar sep rest with
      | [] => [[c]]
      | p :: ps => (c :: p) :: ps

/-- Rust `value.split('-').collect::<Vec<_>>()`. -/
def splitDash (s : String) : List String :=
  (splitOnChar '-' s.data).map String.mk

/-! ## Episode / quality heuristics (`services/rss.rs` lines 54-88) -/

/-- Numeric value of a digit character. -/
def digitVal (c : Char) : Nat := c.toNat - 48

/-- After the season digits: `E(\d{1,2})` with greedy two-then-one digits. -/
def readEpTail : List Char → Option Nat
  | e :: rest =>
    if e = 'E' || e = 'e' then
      match rest with
      | d1 :: d2 :: _ =>
        if d1.isDigit then
          some (if d2.isDigit then 10 * digitVal d1 + digitVal d2 else digitVal d1)
        else none
      | [d1] => if d1.isDigit then some (digitVal d1) else none
      | [] => none
    else none
  | [] => none

/-- Attempt `(\d{1,2})E(\d{1,2})` just after an `S`, with the regex
engine's greedy-then-backtrack choice for the first group. -/
def seAfterS : List Char → Option (Nat × Nat)
  | d1 :: d2 :: rest =>
    if d1.isDigit && d2.isDigit then
      match readEpTail rest with
      | some ep => some (10 * digitVal d1 + digitVal d2, ep)
      | none =>
        match readEpTail (d2 :: rest) with
        | some ep => some (digitVal d1, ep)
        | none => none
    else if d1.isDigit then
      (readEpTail (d2 :: rest)).map (fun ep => (digitVal d1, ep))
    else none
  | _ => none

/-- Leftmost match of `(?i)S(\d{1,2})E(\d{1,2})`. -/
def findSE : List Char → Option (Nat × Nat)
  | [] => none
  | c :: rest =>
    if c = 'S' || c = 's' then
      match seAfterS rest with
      | some r => some r
      | none => findSE rest
    else findSE rest

/-- `x` (case-insensitive) followed by exactly two digits: `x(\d{2})`. -/
def readX2 : List Char → Option Nat
  | x :: d1 :: d2 :: _ =>
    if (x = 'x' || x = 'X') && d1.isDigit && d2.isDigit then
      some (10 * digitVal d1 + digitVal d2)
    else none
  | _ => none

/-- Attempt `(\d{1,2})x(\d{2})` starting at this position. -/
def xAt : List Char → Option (Nat × Nat)
  | d1 :: d2 :: rest =>
    if d1.isDigit && d2.isDigit then
      match readX2 rest with
      | some ep => some (10 * digitVal d1 + digitVal d2, ep)
      | none => (readX2 (d2 :: rest)).map (fun ep => (digitVal d1, ep))
    else if d1.isDigit then
      (readX2 (d2 :: rest)).map (fun ep => (digitVal d1, ep))
    else none
  | _ => none

/-- Leftmost match of `(?i)(\d{1,2})x(\d{2})`. -/
def findX : List Char → Option (Nat × Nat)
  | [] => none
  | c :: rest =>
    match xAt (c :: rest) with
    | some r => some r
    | none => findX rest

/-- Attempt the daily pattern `(\d{4})[.\-](\d{2})[.\-](\d{2})` at this
position; captures are returned verbatim as in the Rust code. -/
def dailyAt : List Char → Option (String × String × String)
  | y1 :: y2 :: y3 :: y4 :: s1 :: m1 :: m2 :: s2 :: d1 :: d2 :: _ =>
    if y1.isDigit && y2.isDigit && y3.isDigit && y4.isDigit
        && (s1 = '.' || s1 = '-') && m1.isDigit && m2.isDigit
        && (s2 = '.' || s2 = '-') && d1.isDigit && d2.isDigit then
      some (String.mk [y1, y2, y3, y4], String.mk [m1, m2], String.mk [d1, d2])
    else none
  | _ => none

/-- Leftmost match of the daily pattern. -/
def findDaily : List Char → Option (String × String × String)
  | [] => none
  | c :: rest =>
    match dailyAt (c :: rest) with
    | some r => some r
    | none => findDaily rest

/-- Rust `format!("{:02}", n)` for the extracted 1-2 digit numbers. -/
def pad2 (n : Nat) : String :=
  if n < 10 then "0" ++ toString n else toString n

/-- `extract_episode_id`: `S##E##` first, then `#x##`, then daily. -/
def extract_episode_id (title : String) : Option String :=
  match findSE title.data with
  | some (s, e) => some ("S" ++ pad2 s ++ "E" ++ pad2 e)
  | none =>
    match findX title.data with
    | some (s, e) => some ("S" ++ pad2 s ++ "E" ++ pad2 e)
    | none =>
      match findDaily title.data with
      | some (y, m, d) => some (y ++ "-" ++ m ++ "-" ++ d)
      | none => none

/-- `is_quality_upgrade`: case-insensitive substring test for
"proper", "repack", "rerip". -/
def is_quality_upgrade (title : String) : Bool :=
  let lower := lowerStr title
  containsSub lower "proper" || containsSub lower "repack" || containsSub lower "rerip"

/-! ## Backoff and URL helpers -/

/-- `calculate_backoff`: `(1u64 << failure_count.saturating_sub(1).min(5)).min(30)`
minutes, returned in seconds as the `Duration` is. -/
def calculate_backoff (failure_count : Nat) : Nat :=
  (min (1 <<< min (failure_count - 1) 5) 30) * 60

/-- `has_search_placeholder`: `url.contains("{search}")`. -/
def has_search_placeholder (url : String) : Bool :=
  containsSub url "\x7bsearch\x7d"

/-- `wildcard_to_regex`, per-character translation. -/
def wildcard_char (c : Char) : List Char :=
  if c = '*' then ['.', '*']
  else if c = '?' then ['.']
  else if c = '.' || c = '+' || c = '^' || c = '$' || c = '(' || c = ')'
      || c = '[' || c = ']' || c = '\x7b' || c = '\x7d' || c = '|' || c = '\\' then
    ['\\', c]
  else [c]

/-- `wildcard_to_regex(pattern)`. -/
def wildcard_to_regex (pattern : String) : String :=
  String.mk (pattern.data.flatMap wildcard_char)

/-! ## Filter evaluator (`services/rss.rs` lines 394-483)

`rm pat text` is the regex-collaborator oracle for
`Regex::new(pat).map(|re| re.is_match(text)).unwrap_or(false)`. -/

/-- `evaluate_single_filter`. -/
def evaluate_single_filter (rm : String → String → Bool)
    (item : ParsedFeedItem) (filter : FeedFilter) : Bool :=
  match filter.filter_type with
  | FilterType.MustContain =>
      containsSub (lowerStr item.title) (lowerStr filter.value)
  | FilterType.MustNotContain =>
      !containsSub (lowerStr item.title) (lowerStr filter.value)
  | FilterType.Regex => rm filter.value item.title
  | FilterType.Wildcard =>
      rm ("(?i)" ++ wildcard_to_regex (lowerStr filter.value)) item.title
  | FilterType.SizeRange =>
      match item.size with
      | some size =>
        match splitDash filter.value with
        | [a, b] =>
          let min_mb := (parse_u64 a).getD 0
          let max_mb := (parse_u64 b).getD (2 ^ 64 - 1)
          let size_mb := size / (1024 * 1024)
          decide (min_mb ≤ size_mb ∧ size_mb ≤ max_mb)
        | _ => true
      | none => true

/-- The human-readable clause appended per satisfied filter. -/
def filter_desc (f : FeedFilter) : String :=
  match f.filter_type with
  | FilterType.MustContain => "contains \"" ++ f.value ++ "\""
  | FilterType.MustNotContain => "excludes \"" ++ f.value ++ "\""
  | FilterType.Regex => "regex /" ++ f.value ++ "/"
  | FilterType.Wildcard => "wildcard \"" ++ f.value ++ "\""
  | FilterType.SizeRange => "size " ++ f.value

/-- `evaluate_filters_with_logic`. -/
def evaluate_filters_with_logic (rm : String → String → Bool)
    (item : ParsedFeedItem) (filters : List FeedFilter)
    (logic : FilterLogic) : Option String :=
  let enabled := filters.filter (fun f => f.enabled)
  if enabled.isEmpty then some "no filters"
  else
    let results := enabled.map (evaluate_single_filter rm item)
    let matched :=
      match logic with
      | FilterLogic.Or => results.any id
      | FilterLogic.And => results.all id
    if !matched then none
    else
      some (String.intercalate ", "
        ((enabled.zip results).filterMap
          (fun p => if p.2 then some (filter_desc p.1) else none)))

/-! ## Mutable engine state (`RssState`), as touched by one poll -/

/-- The three collections a poll mutates: the seen-item ledger
(key → timestamp `HashMap`), the per-interest seen-episode ledger,
and the pending-match queue (in `Vec` push order). -/
structure MatchState where
  seen_items : List (String × Nat)
  seen_episodes : List (String × List String)
  pending_matches : List PendingMatch
deriving DecidableEq, Repr

/-- `HashMap::contains_key` on the seen-item ledger. -/
def seenContains (seen : List (String × Nat)) (k : String) : Bool :=
  seen.any (fun p => p.1 = k)

/-- `seen_episodes.entry(iid).or_default()` read back as a set. -/
def epsLookup : List (String × List String) → String → List String
  | [], _ => []
  | (j, s) :: rest, iid => if j = iid then s else epsLookup rest iid

/-- `seen_episodes.entry(iid).or_default().insert(ep)`. -/
def epsRecord : List (String × List String) → String → String → List (String × List String)
  | [], iid, ep => [(iid, [ep])]
  | (j, s) :: rest, iid, ep =>
    if j = iid then (j, ep :: s) :: rest else (j, s) :: epsRecord rest iid ep

/-- Standard-mode dedup key: `source_id:item_id`, or `source_id:item_guid`
under `use_guid_dedup`. -/
def dedup_key (src : Source) (item : ParsedFeedItem) : String :=
  if src.use_guid_dedup then src.id ++ ":" ++ item.guid else src.id ++ ":" ++ item.id

/-- Placeholder-mode dedup key: `source_id:interest_id:base_id`. -/
def interest_key (src : Source) (interest : Interest) (item : ParsedFeedItem) : String :=
  src.id ++ ":" ++ interest.id ++ ":" ++ (if src.use_guid_dedup then item.guid else item.id)

/-- The `PendingMatch` the scheduler pushes (UUID and event emission
are collaborator effects; `created_at` is the poll clock). -/
def mk_pending (src : Source) (i : Interest) (item : ParsedFeedItem) (now : Nat) : PendingMatch :=
  { id := ""
    source_id := src.id
    source_name := src.name
    interest_id := i.id
    interest_name := i.name
    title := item.title
    magnet_uri := item.magnet_uri
    torrent_url := item.torrent_url
    created_at := now }

/-- The inner "check against all interests, first match wins" loop of
`check_source_for_matches_with_cache` (lines 687-743): returns the
matched interest together with the updated seen-episode ledger, or
`none` when every interest either fails its filters or is blocked by
the seen-episode gate. -/
def match_interests (rm : String → String → Bool) (item : ParsedFeedItem)
    (is_upgrade : Bool) :
    List Interest → List (String × List String) →
    Option (List (String × List String) × Interest)
  | [], _ => none
  | i :: rest, eps =>
    if (evaluate_filters_with_logic rm item i.filters i.filter_logic).isSome then
      if i.smart_episode_filter && !is_upgrade then
        match extract_episode_id item.title with
        | some ep =>
          if (epsLookup eps i.id).contains ep then
            match_interests rm item is_upgrade rest eps
          else
            some (epsRecord eps i.id ep, i)
        | none => some (eps, i)
      else some (eps, i)
    else match_interests rm item is_upgrade rest eps

/-- The per-item body of the standard-mode loop of
`check_source_for_matches_with_cache` (lines 664-743): dedup-key gate,
no-actionable-link marking, then first-interest-wins matching.
Returns the increment to `matched_count` and the state after the item. -/
def process_item (rm : String → String → Bool) (src : Source)
    (interests : List Interest) (item : ParsedFeedItem) (now : Nat)
    (st : MatchState) : Nat × MatchState :=
  let key := dedup_key src item
  if seenContains st.seen_items key then (0, st)
  else if item.magnet_uri.isNone && item.torrent_url.isNone then
    (0, { st with seen_items := (key, now) :: st.seen_items })
  else
    match match_interests rm item (is_quality_upgrade item.title) interests st.seen_episodes with
    | none => (0, st)
    | some (eps, i) =>
      (1, { seen_items := (key, now) :: st.seen_items
            seen_episodes := eps
            pending_matches := st.pending_matches ++ [mk_pending src i item now] })

/-- The standard-mode item loop over a fetched feed. -/
def check_source_std_items (rm : String → String → Bool) (src : Source)
    (interests : List Interest) :
    List ParsedFeedItem → Nat → MatchState → Nat × MatchState
  | [], _, st => (0, st)
  | item :: rest, now, st =>
    let r := process_item rm src interests item now st
    let r2 := check_source_std_items rm src interests rest now r.2
    (r.1 + r2.1, r2.2)

/-- Per-item body of `process_items_for_interest` (lines 892-969), the
placeholder-mode path: here an item that fails the interest's filters
is still inserted into the seen-item ledger. -/
def process_item_for_interest (rm : String → String → Bool) (src : Source)
    (interest : Interest) (item : ParsedFeedItem) (use_interest_key : Bool)
    (now : Nat) (st : MatchState) : Nat × MatchState :=
  let key := if use_interest_key then interest_key src interest item
             else dedup_key src item
  if seenContains st.seen_items key then (0, st)
  else if item.magnet_uri.isNone && item.torrent_url.isNone then
    (0, { st with seen_items := (key, now) :: st.seen_items })
  else if (evaluate_filters_with_logic rm item interest.filters interest.filter_logic).isNone then
    (0, { st with seen_items := (key, now) :: st.seen_items })
  else
    if interest.smart_episode_filter && !is_quality_upgrade item.title then
      match extract_episode_id item.title with
      | some ep =>
        if (epsLookup st.seen_episodes interest.id).contains ep then
          (0, { st with seen_items := (key, now) :: st.seen_items })
        else
          (1, { seen_items := (key, now) :: st.seen_items
                seen_episodes := epsRecord st.seen_episodes interest.id ep
                pending_matches := st.pending_matches ++ [mk_pending src interest item now] })
      | none =>
        (1, { seen_items := (key, now) :: st.seen_items
              seen_episodes := st.seen_episodes
              pending_matches := st.pending_matches ++ [mk_pending src interest item now] })
    else
      (1, { seen_items := (key, now) :: st.seen_items
            seen_episodes := st.seen_episodes
            pending_matches := st.pending_matches ++ [mk_pending src interest item now] })

/-- `process_items_for_interest`: loop of the previous body over items. -/
def process_items_for_interest (rm : String → String → Bool) (src : Source)
    (interest : Interest) :
    List ParsedFeedItem → Bool → Nat → MatchState → Nat × MatchState
  | [], _, _, st => (0, st)
  | item :: rest, uik, now, st =>
    let r := process_item_for_interest rm src interest item uik now st
    let r2 := process_items_for_interest rm src interest rest uik now r.2
    (r.1 + r2.1, r2.2)

/-- Placeholder branch of `check_source_for_matches`: one fetch per
interest (the per-interest URL build and fetch are the collaborator
input `fetchI`; `none` models a failed fetch, logged and skipped). -/
def check_source_placeholder (rm : String → String → Bool) (src : Source) :
    List Interest → (Interest → Option (List ParsedFeedItem)) → Nat →
    MatchState → Nat × MatchState
  | [], _, _, st => (0, st)
  | i :: rest, fetchI, now, st =>
    match fetchI i with
    | some items =>
      let r := process_items_for_interest rm src i items true now st
      let r2 := check_source_placeholder rm src rest fetchI now r.2
      (r.1 + r2.1, r2.2)
    | none => check_source_placeholder rm src rest fetchI now st

/-- `check_source_for_matches_with_cache` (lines 637-750): placeholder
sources delegate to the per-interest uncached path; otherwise the cached
fetch result either short-circuits on 304 or feeds the standard item
loop.  Returns `((matched_count, new_etag, new_last_modified), state)`. -/
def check_source_for_matches_with_cache (rm : String → String → Bool)
    (src : Source) (interests : List Interest) (fetchStd : FetchFeedResult)
    (fetchI : Interest → Option (List ParsedFeedItem)) (now : Nat)
    (st : MatchState) : (Nat × Option String × Option String) × MatchState :=
  if has_search_placeholder src.url then
    let r := check_source_placeholder rm src interests fetchI now st
    ((r.1, none, none), r.2)
  else if fetchStd.not_modified then ((0, none, none), st)
  else
    let r := check_source_std_items rm src interests fetchStd.items now st
    ((r.1, fetchStd.etag, fetchStd.last_modified), r.2)

/-- The per-source bookkeeping of the scheduler loop in `start_service`
(lines 577-607): `result = some (etag, lm)` is the `Ok` arm, `none` the
`Err` arm; both arms then stamp `next_check_at` and `last_checked`. -/
def scheduler_update_source (src : Source)
    (result : Option (Option String × Option String)) (now : Nat)
    (global_interval_mins : Nat) : Source :=
  let s :=
    match result with
    | some r =>
      { src with
        failure_count := 0
        retry_after := none
        etag := if r.1.isSome then r.1 else src.etag
        last_modified := if r.2.isSome then r.2 else src.last_modified }
    | none =>
      let fc := min (src.failure_count + 1) (2 ^ 32 - 1)
      { src with
        failure_count := fc
        retry_after := some (now + calculate_backoff fc) }
  { s with
    next_check_at := some (now + (src.check_interval.getD global_interval_mins) * 60)
    last_checked := some now }

/-! ## Pending-match lifecycle (`approve_match`, `reject_match`) and
the source registry command (`rss_add_source`) -/

/-- `matches.iter().position(|m| m.id == id)` followed by
`matches.remove(idx)`: removes the first match with the given id. -/
def removeFirstById : List PendingMatch → String → Option (PendingMatch × List PendingMatch)
  | [], _ => none
  | m :: rest, mid =>
    if m.id = mid then some (m, rest)
    else (removeFirstById rest mid).map (fun p => (p.1, m :: p.2))

/-- `approve_match` (lines 1153-1223).  `engine` is the download
collaborator: `torrent_engine::add_magnet` / torrent-file download plus
`add_torrent_bytes`, taking the URI and the optional custom download
path and returning the torrent id or an error message.  The returned
list is the pending queue after the call. -/
def approve_match (match_id : String)
    (engine : String → Option String → Except String Int)
    (interests : List Interest) (pending : List PendingMatch) :
    List PendingMatch × Except RssError Int :=
  match removeFirstById pending match_id with
  | none => (pending, Except.error (RssError.notFound "Match not found"))
  | some (m, rest) =>
    let download_path :=
      (interests.find? (fun i => i.id = m.interest_id)).bind (fun i => i.download_path)
    match m.magnet_uri.or m.torrent_url with
    | none => (rest, Except.error (RssError.invalidInput "No torrent URI"))
    | some u =>
      match engine u download_path with
      | Except.error e => (rest, Except.error (RssError.torrent e))
      | Except.ok tid => (rest, Except.ok tid)

/-- `reject_match` (lines 1226-1238): `matches.retain(|m| m.id != match_id)`
and unconditional `Ok(())`. -/
def reject_match (match_id : String) (pending : List PendingMatch) :
    List PendingMatch × Except RssError Unit :=
  (pending.filter (fun m => m.id ≠ match_id), Except.ok ())

/-- `rss_add_source` (`commands/rss.rs` lines 148-160): duplicate-URL
guard, then push.  The returned list is the registry after the call. -/
def rss_add_source (sources : List Source) (source : Source) :
    List Source × Except RssError Source :=
  if sources.any (fun s => s.url = source.url) then
    (sources, Except.error (RssError.invalidInput "Source URL already exists"))
  else
    (sources ++ [source], Except.ok source)

/-! ## Predicates and concrete objects used by the verification -/

/-- Ledger growth: every key present in `s` is present in `t`. -/
def seenSub (s t : List (String × Nat)) : Prop :=
  ∀ k, seenContains s k = true → seenContains t k = true

/-- Episode-ledger growth: membership is preserved pointwise. -/
def epsSub (e1 e2 : List (String × List String)) : Prop :=
  ∀ iid ep, (epsLookup e1 iid).contains ep = true →
    (epsLookup e2 iid).contains ep = true

/-- Both ledgers of `s` are contained in those of `t`. -/
def stateSub (s t : MatchState) : Prop :=
  seenSub s.seen_items t.seen_items ∧ epsSub s.seen_episodes t.seen_episodes

/-- An interest neither matches the item nor lets it through the
seen-episode gate: it fails its filters, or it matched but the gate
(smart filter on, not an upgrade, episode already recorded) blocks it.
This is exactly when the inner interest loop `continue`s past it. -/
def blockedAt (rm : String → String → Bool) (item : ParsedFeedItem) (up : Bool)
    (i : Interest) (eps : List (String × List String)) : Prop :=
  (evaluate_filters_with_logic rm item i.filters i.filter_logic).isSome = true →
    (i.smart_episode_filter && !up) = true ∧
    ∃ ep, extract_episode_id item.title = some ep ∧
      (epsLookup eps i.id).contains ep = true

/-- Regex oracle for concrete runs that use no `Regex`/`Wildcard`
filters (its value is then irrelevant). -/
def no_regex : String → String → Bool := fun _ _ => false

/-- Concrete source for the episode-suppression scenario. -/
def c4_source : Source :=
  { id := "s1", name := "Feed", url := "https://feed.example/rss", enabled := true
    check_interval := none, last_checked := none, next_check_at := none
    etag := none, last_modified := none, failure_count := 0, retry_after := none
    use_guid_dedup := false }

/-- Concrete catch-all interest with the smart episode filter on. -/
def c4_interest : Interest :=
  { id := "i1", name := "Shows", enabled := true, filters := []
    filter_logic := FilterLogic.And, search_term := none
    smart_episode_filter := true, download_path := none }

/-- First release of the episode. -/
def c4_item1 : ParsedFeedItem :=
  { id := "a1", guid := "a1", title := "Show.S01E01.1080p"
    magnet_uri := some "magnet:?xt=1", torrent_url := none
    size := none, published_date := none }

/-- REPACK of the same episode. -/
def c4_item2 : ParsedFeedItem :=
  { id := "a2", guid := "a2", title := "Show.S01E01.1080p.REPACK"
    magnet_uri := some "magnet:?xt=2", torrent_url := none
    size := none, published_date := none }

/-- Plain duplicate of the same episode at another quality. -/
def c4_item3 : ParsedFeedItem :=
  { id := "a3", guid := "a3", title := "Show.S01E01.720p"
    magnet_uri := some "magnet:?xt=3", torrent_url := none
    size := none, published_date := none }

/-! ## Ledger lemmas -/

theorem seenContains_cons_self (s : List (String × Nat)) (k : String) (n : Nat) :
    seenContains ((k, n) :: s) k = true := by
  simp [seenContains]

theorem seenSub_refl (s : List (String × Nat)) : seenSub s s :=
  fun _ h => h

theorem seenSub_cons (s : List (String × Nat)) (k : String) (n : Nat) :
    seenSub s ((k, n) :: s) := by
  intro k' h
  simp only [seenContains, List.any_cons, Bool.or_eq_true]
  exact Or.inr h

theorem epsSub_refl (e : List (String × List String)) : epsSub e e :=
  fun _ _ h => h

theorem epsLookup_epsRecord (eps : List (String × List String)) (j e iid : String) :
    epsLookup (epsRecord eps j e) iid =
      if j = iid then e :: epsLookup eps j else epsLookup eps iid := by
  induction eps with
  | nil =>
    by_cases h : j = iid <;> simp [epsRecord, epsLookup, h]
  | cons hd tl ih =>
    obtain ⟨k, s⟩ := hd
    by_cases hkj : k = j
    · subst hkj
      by_cases hki : k = iid <;> simp [epsRecord, epsLookup, hki]
    · by_cases hki : k = iid
      · subst hki
        have hji : ¬ j = k := fun h => hkj h.symm
        simp [epsRecord, epsLookup, hkj, hji]
      · simp [epsRecord, epsLookup, hkj, hki, ih]

theorem epsSub_record (eps : List (String × List String)) (j e : String) :
    epsSub eps (epsRecord eps j e) := by
  intro iid ep h
  rw [epsLookup_epsRecord]
  by_cases hj : j = iid
  · subst hj
    rw [if_pos rfl]
    simp only [List.contains_cons, Bool.or_eq_true]
    exact Or.inr h
  · rw [if_neg hj]
    exact h

theorem stateSub_refl (s : MatchState) : stateSub s s :=
  ⟨seenSub_refl _, epsSub_refl _⟩

theorem stateSub_trans {s t u : MatchState} (h1 : stateSub s t) (h2 : stateSub t u) :
    stateSub s u :=
  ⟨fun k hk => h2.1 k (h1.1 k hk), fun iid ep he => h2.2 iid ep (h1.2 iid ep he)⟩

/-! ## Interest-loop lemmas -/

theorem match_interests_eps_mono {rm : String → String → Bool}
    {item : ParsedFeedItem} {up : Bool} {l : List Interest}
    {eps eps' : List (String × List String)} {i : Interest}
    (h : match_interests rm item up l eps = some (eps', i)) :
    epsSub eps eps' := by
  induction l with
  | nil => simp [match_interests] at h
  | cons hd tl ih =>
    simp only [match_interests] at h
    split at h
    · split at h
      · split at h
        · split at h
          · exact ih h
          · cases h
            exact epsSub_record _ _ _
        · cases h
          exact epsSub_refl _
      · cases h
        exact epsSub_refl _
    · exact ih h

theorem match_interests_none_iff {rm : String → String → Bool}
    {item : ParsedFeedItem} {up : Bool} {l : List Interest}
    {eps : List (String × List String)} :
    match_interests rm item up l eps = none ↔ ∀ i ∈ l, blockedAt rm item up i eps := by
  induction l with
  | nil => simp [match_interests]
  | cons hd tl ih =>
    simp only [match_interests]
    constructor
    · intro h
      intro i hi
      rcases List.mem_cons.mp hi with hib | hib
      · subst hib
        split at h
        · rename_i hf
          split at h
          · rename_i hs
            split at h
            · rename_i ep hext
              split at h
              · rename_i hc
                exact fun _ => ⟨hs, ep, hext, hc⟩
              · cases h
            · cases h
          · cases h
        · rename_i hf
          intro hsome
          exact absurd hsome hf
      · split at h
        · split at h
          · split at h
            · split at h
              · exact (ih.mp h) i hib
              · cases h
            · cases h
          · cases h
        · exact (ih.mp h) i hib
    · intro hall
      have hhd := hall hd (List.mem_cons_self hd tl)
      have htl : match_interests rm item up tl eps = none :=
        ih.mpr (fun i hi => hall i (List.mem_cons_of_mem hd hi))
      split
      · rename_i hf
        obtain ⟨hs, ep, hext, hc⟩ := hhd hf
        rw [if_pos hs, hext]
        show (if (epsLookup eps hd.id).contains ep = true
            then match_interests rm item up tl eps
            else some (epsRecord eps hd.id ep, hd)) = none
        rw [if_pos hc]
        exact htl
      · exact htl

theorem blockedAt_mono {rm : String → String → Bool} {item : ParsedFeedItem}
    {up : Bool} {i : Interest} {eps eps' : List (String × List String)}
    (h : blockedAt rm item up i eps) (hsub : epsSub eps eps') :
    blockedAt rm item up i eps' := by
  intro hf
  obtain ⟨hs, ep, hext, hc⟩ := h hf
  exact ⟨hs, ep, hext, hsub i.id ep hc⟩

/-! ## Per-item processing lemmas -/

theorem process_item_skip {rm : String → String → Bool} {src : Source}
    {interests : List Interest} {item : ParsedFeedItem} {now : Nat}
    {st : MatchState}
    (h : seenContains st.seen_items (dedup_key src item) = true) :
    process_item rm src interests item now st = (0, st) := by
  simp [process_item, h]

theorem process_item_mono (rm : String → String → Bool) (src : Source)
    (interests : List Interest) (item : ParsedFeedItem) (now : Nat)
    (st : MatchState) :
    stateSub st (process_item rm src interests item now st).2 := by
  simp only [process_item]
  split
  · exact stateSub_refl st
  · split
    · exact ⟨seenSub_cons _ _ _, epsSub_refl _⟩
    · split
      · exact stateSub_refl st
      · rename_i eps i h
        exact ⟨seenSub_cons _ _ _, match_interests_eps_mono h⟩

theorem process_item_self (rm : String → String → Bool) (src : Source)
    (interests : List Interest) (item : ParsedFeedItem) (now now2 : Nat)
    (st : MatchState) :
    process_item rm src interests item now2
        (process_item rm src interests item now st).2
      = (0, (process_item rm src interests item now st).2) := by
  by_cases h1 : seenContains st.seen_items (dedup_key src item) = true
  · rw [process_item_skip h1]
    exact process_item_skip h1
  · by_cases h2 : (item.magnet_uri.isNone && item.torrent_url.isNone) = true
    · have hfirst : (process_item rm src interests item now st).2
          = { st with seen_items := (dedup_key src item, now) :: st.seen_items } := by
        simp [process_item, h1, h2]
      rw [hfirst]
      exact process_item_skip (seenContains_cons_self _ _ _)
    · cases hmi : match_interests rm item (is_quality_upgrade item.title)
          interests st.seen_episodes with
      | none =>
        have hfirst : (process_item rm src interests item now st).2 = st := by
          simp [process_item, h1, h2, hmi]
        rw [hfirst]
        simp [process_item, h1, h2, hmi]
      | some r =>
        have hfirst : (process_item rm src interests item now st).2
            = { seen_items := (dedup_key src item, now) :: st.seen_items
                seen_episodes := r.1
                pending_matches := st.pending_matches ++ [mk_pending src r.2 item now] } := by
          simp [process_item, h1, h2, hmi]
        rw [hfirst]
        exact process_item_skip (seenContains_cons_self _ _ _)

theorem process_item_noop_mono {rm : String → String → Bool} {src : Source}
    {interests : List Interest} {item : ParsedFeedItem} {nowA : Nat}
    {st : MatchState}
    (h : process_item rm src interests item nowA st = (0, st))
    {st2 : MatchState} (hsub : stateSub st st2) (nowB : Nat) :
    process_item rm src interests item nowB st2 = (0, st2) := by
  by_cases hk2 : seenContains st2.seen_items (dedup_key src item) = true
  · exact process_item_skip hk2
  · have hk : seenContains st.seen_items (dedup_key src item) = false := by
      cases hkv : seenContains st.seen_items (dedup_key src item)
      · rfl
      · exact absurd (hsub.1 _ hkv) hk2
    by_cases h2 : (item.magnet_uri.isNone && item.torrent_url.isNone) = true
    · exfalso
      have : ((0 : Nat),
          ({ st with seen_items := (dedup_key src item, nowA) :: st.seen_items } : MatchState))
          = (0, st) := by
        rw [← h]
        simp [process_item, hk, h2]
      have hseen := congrArg (fun p => p.2.seen_items) this
      simp only at hseen
      exact List.cons_ne_self _ _ hseen
    · cases hmi : match_interests rm item (is_quality_upgrade item.title)
          interests st.seen_episodes with
      | none =>
        have hmi2 : match_interests rm item (is_quality_upgrade item.title)
            interests st2.seen_episodes = none :=
          match_interests_none_iff.mpr
            (fun i hi => blockedAt_mono (match_interests_none_iff.mp hmi i hi) hsub.2)
        simp [process_item, hk2, h2, hmi2]
      | some r =>
        exfalso
        have : ((1 : Nat),
            ({ seen_items := (dedup_key src item, nowA) :: st.seen_items
               seen_episodes := r.1
               pending_matches := st.pending_matches ++ [mk_pending src r.2 item nowA] }
              : MatchState)) = (0, st) := by
          rw [← h]
          simp [process_item, hk, h2, hmi]
        exact absurd (congrArg Prod.fst this) (by simp)

/-! ## Feed-loop lemmas -/

theorem check_std_mono (rm : String → String → Bool) (src : Source)
    (interests : List Interest) (items : List ParsedFeedItem) (now : Nat)
    (st : MatchState) :
    stateSub st (check_source_std_items rm src interests items now st).2 := by
  induction items generalizing st with
  | nil => exact stateSub_refl st
  | cons item rest ih =>
    simp only [check_source_std_items]
    exact stateSub_trans (process_item_mono rm src interests item now st) (ih _)

theorem check_std_establishes (rm : String → String → Bool) (src : Source)
    (interests : List Interest) (items : List ParsedFeedItem) (now : Nat)
    (st : MatchState) :
    ∀ item ∈ items, ∀ nowB,
      process_item rm src interests item nowB
          (check_source_std_items rm src interests items now st).2
        = (0, (check_source_std_items rm src interests items now st).2) := by
  induction items generalizing st with
  | nil => intro item hi; cases hi
  | cons hd rest ih =>
    intro item hi nowB
    rcases List.mem_cons.mp hi with hib | hib
    · subst hib
      simp only [check_source_std_items]
      have hself := process_item_self rm src interests item now nowB st
      have hsub := check_std_mono rm src interests rest now
        (process_item rm src interests item now st).2
      exact process_item_noop_mono hself hsub nowB
    · simp only [check_source_std_items]
      exact ih (process_item rm src interests hd now st).2 item hib nowB

theorem check_std_of_noop {rm : String → String → Bool} {src : Source}
    {interests : List Interest} {items : List ParsedFeedItem}
    {st : MatchState}
    (h : ∀ item ∈ items, ∀ nowB, process_item rm src interests item nowB st = (0, st))
    (now2 : Nat) :
    check_source_std_items rm src interests items now2 st = (0, st) := by
  induction items with
  | nil => rfl
  | cons hd rest ih =>
    simp only [check_source_std_items]
    rw [h hd (List.mem_cons_self hd rest) now2]
    rw [ih (fun item hi nowB => h item (List.mem_cons_of_mem hd hi) nowB)]
    rfl

/-- The dedup-key gate of the placeholder path: a present key makes the
item a complete no-op there as well. -/
theorem process_item_for_interest_skip {rm : String → String → Bool}
    {src : Source} {interest : Interest} {item : ParsedFeedItem}
    {uik : Bool} {now : Nat} {st : MatchState}
    (h : seenContains st.seen_items
        (if uik then interest_key src interest item else dedup_key src item) = true) :
    process_item_for_interest rm src interest item uik now st = (0, st) := by
  simp [process_item_for_interest, h]

/-! ## Claim theorems -/

/-- C5: for every failure count n ≥ 1 the computed backoff equals
min(2^(n-1), 30) minutes (the sequence 1, 2, 4, 8, 16, then 30), the
backoff is monotone non-decreasing and bounded by 30 minutes (all
values in seconds), and the scheduler's success arm resets the source's
failure_count to 0 and clears retry_after. -/
theorem c5_backoff_shape_and_reset :
    (∀ n, 1 ≤ n → calculate_backoff n = min (2 ^ (n - 1)) 30 * 60)
    ∧ (∀ n, calculate_backoff n ≤ calculate_backoff (n + 1))
    ∧ (∀ n, calculate_backoff n ≤ 30 * 60)
    ∧ (∀ (src : Source) (r : Option String × Option String) (now g : Nat),
        (scheduler_update_source src (some r) now g).failure_count = 0
        ∧ (scheduler_update_source src (some r) now g).retry_after = none) := by
  refine ⟨?_, ?_, ?_, ?_⟩
  · intro n hn
    unfold calculate_backoff
    rw [Nat.one_shiftLeft]
    rcases le_or_lt (n - 1) 5 with h | h
    · rw [min_eq_left h]
    · rw [min_eq_right (le_of_lt h)]
      have h64 : 64 ≤ 2 ^ (n - 1) := by
        calc (64 : Nat) = 2 ^ 6 := by norm_num
          _ ≤ 2 ^ (n - 1) := Nat.pow_le_pow_right (by norm_num) (by omega)
      have hr : min (2 ^ (n - 1)) 30 = 30 := min_eq_right (by omega)
      rw [hr]
      norm_num
  · intro n
    unfold calculate_backoff
    rw [Nat.one_shiftLeft, Nat.one_shiftLeft]
    refine Nat.mul_le_mul_right _ (min_le_min ?_ le_rfl)
    exact Nat.pow_le_pow_right (by norm_num) (by omega)
  · intro n
    unfold calculate_backoff
    exact Nat.mul_le_mul_right _ (min_le_right _ _)
  · intro src r now g
    exact ⟨rfl, rfl⟩

/-- Witness for C5 at concrete inputs. -/
theorem c5_backoff_shape_and_reset_witness :
    calculate_backoff 6 = min (2 ^ 5) 30 * 60
    ∧ (scheduler_update_source
        ⟨"s1", "F", "https://feed.example/rss", true, none, none, none, none,
          none, 4, some 99, false⟩ (some (none, none)) 7 15).failure_count = 0 :=
  ⟨c5_backoff_shape_and_reset.1 6 (by decide),
   (c5_backoff_shape_and_reset.2.2.2
      ⟨"s1", "F", "https://feed.example/rss", true, none, none, none, none,
        none, 4, some 99, false⟩ (none, none) 7 15).1⟩

/-- C6: a SizeRange filter passes every item with unknown size; for a
known size and a well-formed "minMB-maxMB" value it passes exactly when
min ≤ size-in-MB ≤ max (inclusive); and an item of 1073741824 bytes
(1024 MB) does not pass the value "100-500". -/
theorem c6_size_range_semantics :
    (∀ rm (item : ParsedFeedItem) v en, item.size = none →
        evaluate_single_filter rm item ⟨FilterType.SizeRange, v, en⟩ = true)
    ∧ (∀ rm (item : ParsedFeedItem) sz a b mn mx v en,
        item.size = some sz →
        splitDash v = [a, b] →
        parse_u64 a = some mn →
        parse_u64 b = some mx →
        (evaluate_single_filter rm item ⟨FilterType.SizeRange, v, en⟩ = true ↔
          mn ≤ sz / (1024 * 1024) ∧ sz / (1024 * 1024) ≤ mx))
    ∧ (∀ rm en,
        evaluate_single_filter rm
          ⟨"a1", "a1", "big item", none, none, some 1073741824, none⟩
          ⟨FilterType.SizeRange, "100-500", en⟩ = false) := by
  refine ⟨?_, ?_, ?_⟩
  · intro rm item v en h
    simp [evaluate_single_filter, h]
  · intro rm item sz a b mn mx v en hsz hsplit ha hb
    simp [evaluate_single_filter, hsz, hsplit, ha, hb]
  · intro rm en
    rfl

/-- Witness for C6 at concrete inputs (200 MiB is inside "100-500"). -/
theorem c6_size_range_semantics_witness :
    evaluate_single_filter no_regex
        ⟨"a1", "a1", "t", none, none, none, none⟩
        ⟨FilterType.SizeRange, "100-500", true⟩ = true
    ∧ (evaluate_single_filter no_regex
        ⟨"a1", "a1", "t", none, none, some 209715200, none⟩
        ⟨FilterType.SizeRange, "100-500", true⟩ = true ↔
        100 ≤ 209715200 / (1024 * 1024) ∧ 209715200 / (1024 * 1024) ≤ 500) :=
  ⟨c6_size_range_semantics.1 no_regex _ "100-500" true rfl,
   c6_size_range_semantics.2.1 no_regex _ 209715200 "100" "500" 100 500
     "100-500" true rfl (by decide) (by decide) (by decide)⟩

/-- C7 counterexample: rejecting an id that is not in the queue returns
`Ok(())`, not a not-found error — refuting the claim that both
`approve_match` and `reject_match` report not-found. -/
theorem c7_reject_unknown_id_is_ok :
    reject_match "missing" [] = ([], Except.ok ()) := rfl

/-- C7 amended: for an id not present in the pending queue,
`approve_match` returns an explicit not-found error and leaves the
queue unchanged, while `reject_match` succeeds with `Ok(())` and leaves
the queue unchanged (its removal is a silent no-op). -/
theorem c7_unknown_id_behaviour (mid : String) (pending : List PendingMatch)
    (engine : String → Option String → Except String Int)
    (interests : List Interest)
    (h : ∀ m ∈ pending, m.id ≠ mid) :
    approve_match mid engine interests pending
      = (pending, Except.error (RssError.notFound "Match not found"))
    ∧ reject_match mid pending = (pending, Except.ok ()) := by
  constructor
  · have hrem : removeFirstById pending mid = none := by
      induction pending with
      | nil => rfl
      | cons m rest ih =>
        simp only [removeFirstById]
        rw [if_neg (h m (List.mem_cons_self m rest))]
        rw [ih (fun m' hm' => h m' (List.mem_cons_of_mem m hm'))]
        rfl
    simp [approve_match, hrem]
  · unfold reject_match
    have : pending.filter (fun m => m.id ≠ mid) = pending :=
      List.filter_eq_self.mpr (fun m hm => by simpa using h m hm)
    rw [this]

/-- Witness for the amended C7 at concrete inputs. -/
theorem c7_unknown_id_behaviour_witness :
    approve_match "x" (fun _ _ => Except.ok 1) []
        [⟨"m1", "s", "S", "i", "I", "T", none, none, 0⟩]
      = ([⟨"m1", "s", "S", "i", "I", "T", none, none, 0⟩],
         Except.error (RssError.notFound "Match not found"))
    ∧ reject_match "x" [⟨"m1", "s", "S", "i", "I", "T", none, none, 0⟩]
      = ([⟨"m1", "s", "S", "i", "I", "T", none, none, 0⟩], Except.ok ()) :=
  c7_unknown_id_behaviour "x" _ (fun _ _ => Except.ok 1) [] (by decide)

/-- C10: adding a source whose url equals an existing source's url
fails with an explicit invalid-input error and leaves the registry
unchanged. -/
theorem c10_duplicate_url_rejected (sources : List Source) (source : Source)
    (h : ∃ s ∈ sources, s.url = source.url) :
    rss_add_source sources source
      = (sources, Except.error (RssError.invalidInput "Source URL already exists")) := by
  have hb : (sources.any fun s => s.url = source.url) = true := by
    obtain ⟨s, hs, he⟩ := h
    exact List.any_eq_true.mpr ⟨s, hs, by simp [he]⟩
  simp [rss_add_source, hb]

/-- Witness for C10 at concrete inputs. -/
theorem c10_duplicate_url_rejected_witness :
    rss_add_source
        [⟨"s1", "A", "https://feed.example/rss", true, none, none, none, none,
          none, 0, none, false⟩]
        ⟨"s2", "B", "https://feed.example/rss", true, none, none, none, none,
          none, 0, none, true⟩
      = ([⟨"s1", "A", "https://feed.example/rss", true, none, none, none, none,
          none, 0, none, false⟩],
         Except.error (RssError.invalidInput "Source URL already exists")) :=
  c10_duplicate_url_rejected _ _
    ⟨⟨"s1", "A", "https://feed.example/rss", true, none, none, none, none,
      none, 0, none, false⟩, by simp, rfl⟩

/-- Removal via position-then-remove shortens the queue by one. -/
theorem removeFirstById_length :
    ∀ {pending : List PendingMatch} {mid : String} {m : PendingMatch}
      {rest : List PendingMatch},
      removeFirstById pending mid = some (m, rest) →
      pending.length = rest.length + 1 := by
  intro pending
  induction pending with
  | nil => intro mid m rest h; cases h
  | cons hd tl ih =>
    intro mid m rest h
    simp only [removeFirstById] at h
    split at h
    · cases h
      simp
    · cases hrec : removeFirstById tl mid with
      | none => rw [hrec] at h; cases h
      | some p =>
        rw [hrec] at h
        cases h
        simp [ih hrec]

/-- C2: evaluation with no enabled filter yields the "no filters"
match; And-logic matches exactly when every enabled filter passes;
Or-logic (with at least one enabled filter) matches exactly when some
enabled filter passes; and disabled filters never participate. -/
theorem c2_filter_logic_semantics :
    (∀ rm (item : ParsedFeedItem) (filters : List FeedFilter) logic,
        filters.filter (fun f => f.enabled) = [] →
        evaluate_filters_with_logic rm item filters logic = some "no filters")
    ∧ (∀ rm (item : ParsedFeedItem) (filters : List FeedFilter),
        (evaluate_filters_with_logic rm item filters FilterLogic.And).isSome = true ↔
          ∀ f ∈ filters.filter (fun f => f.enabled),
            evaluate_single_filter rm item f = true)
    ∧ (∀ rm (item : ParsedFeedItem) (filters : List FeedFilter),
        filters.filter (fun f => f.enabled) ≠ [] →
        ((evaluate_filters_with_logic rm item filters FilterLogic.Or).isSome = true ↔
          ∃ f ∈ filters.filter (fun f => f.enabled),
            evaluate_single_filter rm item f = true))
    ∧ (∀ rm (item : ParsedFeedItem) (filters : List FeedFilter) logic,
        evaluate_filters_with_logic rm item filters logic =
          evaluate_filters_with_logic rm item
            (filters.filter (fun f => f.enabled)) logic) := by
  refine ⟨?_, ?_, ?_, ?_⟩
  · intro rm item filters logic h
    simp [evaluate_filters_with_logic, h]
  · intro rm item filters
    by_cases he : (filters.filter (fun f => f.enabled)).isEmpty = true
    · have hnil : filters.filter (fun f => f.enabled) = [] := by
        simpa [List.isEmpty_iff] using he
      simp [evaluate_filters_with_logic, hnil]
    · have key : (evaluate_filters_with_logic rm item filters FilterLogic.And).isSome
          = ((filters.filter (fun f => f.enabled)).map
              (evaluate_single_filter rm item)).all id := by
        simp only [evaluate_filters_with_logic, if_neg he]
        cases ((filters.filter (fun f => f.enabled)).map
            (evaluate_single_filter rm item)).all id <;> simp
      rw [key]
      simp [List.all_map, Function.comp, List.all_eq_true]
  · intro rm item filters hne
    have he : ¬ (filters.filter (fun f => f.enabled)).isEmpty = true := by
      simpa [List.isEmpty_iff] using hne
    have key : (evaluate_filters_with_logic rm item filters FilterLogic.Or).isSome
        = ((filters.filter (fun f => f.enabled)).map
            (evaluate_single_filter rm item)).any id := by
      simp only [evaluate_filters_with_logic, if_neg he]
      cases ((filters.filter (fun f => f.enabled)).map
          (evaluate_single_filter rm item)).any id <;> simp
    rw [key]
    simp [List.any_map, Function.comp, List.any_eq_true]
  · intro rm item filters logic
    have hff : (filters.filter (fun f => f.enabled)).filter (fun f => f.enabled)
        = filters.filter (fun f => f.enabled) := by
      rw [List.filter_filter]
      simp
    simp only [evaluate_filters_with_logic, hff]

/-- Witness for C2 at concrete inputs: a disabled filter is ignored
("no filters"), and Or with one enabled passing filter matches. -/
theorem c2_filter_logic_semantics_witness :
    evaluate_filters_with_logic no_regex
        ⟨"a1", "a1", "ubuntu iso", none, none, none, none⟩
        [⟨FilterType.MustContain, "x", false⟩] FilterLogic.And
      = some "no filters"
    ∧ ((evaluate_filters_with_logic no_regex
          ⟨"a1", "a1", "ubuntu iso", none, none, none, none⟩
          [⟨FilterType.MustContain, "ubuntu", true⟩] FilterLogic.Or).isSome = true ↔
        ∃ f ∈ [(⟨FilterType.MustContain, "ubuntu", true⟩ : FeedFilter)].filter
            (fun f => f.enabled),
          evaluate_single_filter no_regex
            ⟨"a1", "a1", "ubuntu iso", none, none, none, none⟩ f = true) :=
  ⟨c2_filter_logic_semantics.1 no_regex _ _ FilterLogic.And rfl,
   c2_filter_logic_semantics.2.2.1 no_regex _ _ (by decide)⟩

/-- C3: a 304 not-modified cached fetch of a non-placeholder source
performs no ledger or queue mutation and reports zero matches with no
new cache tokens, while the scheduler's success arm still resets
failure_count, clears retry_after, stamps last_checked, and keeps the
previous cache tokens. -/
theorem c3_not_modified_short_circuit (rm : String → String → Bool)
    (src : Source) (interests : List Interest) (fetchStd : FetchFeedResult)
    (fetchI : Interest → Option (List ParsedFeedItem)) (now : Nat)
    (st : MatchState) (g : Nat)
    (hp : has_search_placeholder src.url = false)
    (hnm : fetchStd.not_modified = true) :
    check_source_for_matches_with_cache rm src interests fetchStd fetchI now st
      = ((0, none, none), st)
    ∧ (scheduler_update_source src (some (none, none)) now g).failure_count = 0
    ∧ (scheduler_update_source src (some (none, none)) now g).retry_after = none
    ∧ (scheduler_update_source src (some (none, none)) now g).last_checked = some now
    ∧ (scheduler_update_source src (some (none, none)) now g).etag = src.etag
    ∧ (scheduler_update_source src (some (none, none)) now g).last_modified
        = src.last_modified := by
  refine ⟨?_, rfl, rfl, rfl, rfl, rfl⟩
  simp [check_source_for_matches_with_cache, hp, hnm]

/-- Witness for C3 at concrete inputs. -/
theorem c3_not_modified_short_circuit_witness :
    check_source_for_matches_with_cache no_regex
        ⟨"s1", "F", "https://feed.example/rss", true, none, none, none,
          some "E0", some "L0", 0, none, false⟩
        [] ⟨[], none, none, true⟩ (fun _ => none) 9
        ⟨[("s1:a1", 0)], [("i1", ["S01E01"])],
          [⟨"", "s1", "F", "i1", "I", "T", none, none, 0⟩]⟩
      = ((0, none, none),
         ⟨[("s1:a1", 0)], [("i1", ["S01E01"])],
          [⟨"", "s1", "F", "i1", "I", "T", none, none, 0⟩]⟩)
    ∧ (scheduler_update_source
        ⟨"s1", "F", "https://feed.example/rss", true, none, none, none,
          some "E0", some "L0", 3, some 11, false⟩
        (some (none, none)) 9 15).retry_after = none :=
  ⟨(c3_not_modified_short_circuit no_regex _ [] _ (fun _ => none) 9 _ 15
      (by decide) rfl).1,
   (c3_not_modified_short_circuit no_regex
      ⟨"s1", "F", "https://feed.example/rss", true, none, none, none,
        some "E0", some "L0", 3, some 11, false⟩
      [] ⟨[], none, none, true⟩ (fun _ => none) 9 ⟨[], [], []⟩ 15
      (by decide) rfl).2.2.1⟩

/-- C8: once `approve_match` has found and removed the match, every
later failure (no magnet and no torrent URL, or a download-engine
error) returns its error with the queue already missing the match — the
queue is never restored on error. -/
theorem c8_error_leaves_match_removed (mid : String)
    (engine : String → Option String → Except String Int)
    (interests : List Interest) (pending : List PendingMatch)
    (m : PendingMatch) (rest : List PendingMatch)
    (hfind : removeFirstById pending mid = some (m, rest)) :
    (approve_match mid engine interests pending).1 = rest
    ∧ pending.length = rest.length + 1
    ∧ (m.magnet_uri = none → m.torrent_url = none →
        approve_match mid engine interests pending
          = (rest, Except.error (RssError.invalidInput "No torrent URI")))
    ∧ (∀ u e,
        m.magnet_uri.or m.torrent_url = some u →
        engine u ((interests.find? (fun i => i.id = m.interest_id)).bind
            (fun i => i.download_path)) = Except.error e →
        approve_match mid engine interests pending
          = (rest, Except.error (RssError.torrent e))) := by
  refine ⟨?_, removeFirstById_length hfind, ?_, ?_⟩
  · cases hm : m.magnet_uri with
    | some u =>
      cases he : engine u ((interests.find? (fun i => i.id = m.interest_id)).bind
          (fun i => i.download_path)) <;>
        simp [approve_match, hfind, hm, he, Option.or]
    | none =>
      cases ht : m.torrent_url with
      | none => simp [approve_match, hfind, hm, ht, Option.or]
      | some u =>
        cases he : engine u ((interests.find? (fun i => i.id = m.interest_id)).bind
            (fun i => i.download_path)) <;>
          simp [approve_match, hfind, hm, ht, he, Option.or]
  · intro hmag htor
    have hu : m.magnet_uri.or m.torrent_url = none := by
      rw [hmag, htor]
      rfl
    simp [approve_match, hfind, hu]
  · intro u e huri heng
    simp [approve_match, hfind, huri, heng]

/-- Witness for C8 at concrete inputs (a queued match with no
actionable link). -/
theorem c8_error_leaves_match_removed_witness :
    approve_match "m1" (fun _ _ => Except.ok 1) []
        [⟨"m1", "s", "S", "i", "I", "T", none, none, 0⟩]
      = ([], Except.error (RssError.invalidInput "No torrent URI"))
    ∧ ([⟨"m1", "s", "S", "i", "I", "T", none, none, 0⟩] : List PendingMatch).length
      = ([] : List PendingMatch).length + 1 :=
  ⟨(c8_error_leaves_match_removed "m1" (fun _ _ => Except.ok 1) []
      [⟨"m1", "s", "S", "i", "I", "T", none, none, 0⟩]
      ⟨"m1", "s", "S", "i", "I", "T", none, none, 0⟩ [] rfl).2.2.1 rfl rfl,
   (c8_error_leaves_match_removed "m1" (fun _ _ => Except.ok 1) []
      [⟨"m1", "s", "S", "i", "I", "T", none, none, 0⟩]
      ⟨"m1", "s", "S", "i", "I", "T", none, none, 0⟩ [] rfl).2.1⟩

/-- C1: dedup is idempotent.  A present dedup key makes the item a
complete no-op in the standard loop and in the placeholder loop; and
re-running a whole cached check of a non-placeholder source over the
same fetched feed reports zero matches and leaves the entire state —
pending queue and both ledgers, hence the ledger size — unchanged. -/
theorem c1_dedup_idempotent :
    (∀ rm src (interests : List Interest) item now (st : MatchState),
        seenContains st.seen_items (dedup_key src item) = true →
        process_item rm src interests item now st = (0, st))
    ∧ (∀ rm src interest item uik now (st : MatchState),
        seenContains st.seen_items
          (if uik then interest_key src interest item else dedup_key src item) = true →
        process_item_for_interest rm src interest item uik now st = (0, st))
    ∧ (∀ rm src (interests : List Interest) fetchStd fetchI now1 now2
          (st : MatchState),
        has_search_placeholder src.url = false →
        fetchStd.not_modified = false →
        check_source_for_matches_with_cache rm src interests fetchStd fetchI now2
            (check_source_for_matches_with_cache rm src interests fetchStd fetchI
              now1 st).2
          = ((0, fetchStd.etag, fetchStd.last_modified),
             (check_source_for_matches_with_cache rm src interests fetchStd fetchI
               now1 st).2)) := by
  refine ⟨?_, ?_, ?_⟩
  · intro rm src interests item now st h
    exact process_item_skip h
  · intro rm src interest item uik now st h
    exact process_item_for_interest_skip h
  · intro rm src interests fetchStd fetchI now1 now2 st hp hnm
    have hst1 : (check_source_for_matches_with_cache rm src interests fetchStd
        fetchI now1 st).2
        = (check_source_std_items rm src interests fetchStd.items now1 st).2 := by
      simp [check_source_for_matches_with_cache, hp, hnm]
    have hno : check_source_std_items rm src interests fetchStd.items now2
        (check_source_std_items rm src interests fetchStd.items now1 st).2
        = (0, (check_source_std_items rm src interests fetchStd.items now1 st).2) :=
      check_std_of_noop (check_std_establishes rm src interests fetchStd.items now1 st)
        now2
    rw [hst1]
    simp [check_source_for_matches_with_cache, hp, hnm, hno]

/-- Witness for C1: the spec §8 scenario (one MustContain "ubuntu"
interest, one matching feed item) — the present key skips, and the
re-poll of the identical feed changes nothing and reports 0. -/
theorem c1_dedup_idempotent_witness :
    process_item no_regex
        ⟨"s1", "Feed", "https://feed.example/rss", true, none, none, none, none,
          none, 0, none, false⟩
        [⟨"i1", "Ubuntu", true, [⟨FilterType.MustContain, "ubuntu", true⟩],
          FilterLogic.And, none, false, none⟩]
        ⟨"a1", "a1", "ubuntu-24.04-desktop.iso", some "magnet:?xt=abc", none,
          none, none⟩ 3
        ⟨[("s1:a1", 0)], [], []⟩
      = (0, ⟨[("s1:a1", 0)], [], []⟩)
    ∧ check_source_for_matches_with_cache no_regex
        ⟨"s1", "Feed", "https://feed.example/rss", true, none, none, none, none,
          none, 0, none, false⟩
        [⟨"i1", "Ubuntu", true, [⟨FilterType.MustContain, "ubuntu", true⟩],
          FilterLogic.And, none, false, none⟩]
        ⟨[⟨"a1", "a1", "ubuntu-24.04-desktop.iso", some "magnet:?xt=abc", none,
          none, none⟩], some "E1", some "L1", false⟩
        (fun _ => none) 2
        (check_source_for_matches_with_cache no_regex
          ⟨"s1", "Feed", "https://feed.example/rss", true, none, none, none, none,
            none, 0, none, false⟩
          [⟨"i1", "Ubuntu", true, [⟨FilterType.MustContain, "ubuntu", true⟩],
            FilterLogic.And, none, false, none⟩]
          ⟨[⟨"a1", "a1", "ubuntu-24.04-desktop.iso", some "magnet:?xt=abc", none,
            none, none⟩], some "E1", some "L1", false⟩
          (fun _ => none) 1 ⟨[], [], []⟩).2
      = ((0, some "E1", some "L1"),
         (check_source_for_matches_with_cache no_regex
           ⟨"s1", "Feed", "https://feed.example/rss", true, none, none, none, none,
             none, 0, none, false⟩
           [⟨"i1", "Ubuntu", true, [⟨FilterType.MustContain, "ubuntu", true⟩],
             FilterLogic.And, none, false, none⟩]
           ⟨[⟨"a1", "a1", "ubuntu-24.04-desktop.iso", some "magnet:?xt=abc", none,
             none, none⟩], some "E1", some "L1", false⟩
           (fun _ => none) 1 ⟨[], [], []⟩).2) :=
  ⟨c1_dedup_idempotent.1 no_regex _ _ _ 3 _ (by decide),
   c1_dedup_idempotent.2.2 no_regex _ _ _ (fun _ => none) 1 2 ⟨[], [], []⟩
     (by decide) rfl⟩

/-- C4: with the smart episode filter on, the items
"Show.S01E01.1080p", "Show.S01E01.1080p.REPACK", "Show.S01E01.720p"
processed in order queue exactly the first two pending matches (the
REPACK is exempted by the quality-upgrade test) and not the third. -/
theorem c4_episode_suppression :
    is_quality_upgrade "Show.S01E01.1080p.REPACK" = true
    ∧ is_quality_upgrade "Show.S01E01.720p" = false
    ∧ (check_source_std_items no_regex c4_source [c4_interest]
        [c4_item1, c4_item2, c4_item3] 0 ⟨[], [], []⟩).1 = 2
    ∧ ((check_source_std_items no_regex c4_source [c4_interest]
        [c4_item1, c4_item2, c4_item3] 0 ⟨[], [], []⟩).2.pending_matches.map
          (fun p => p.title))
      = ["Show.S01E01.1080p", "Show.S01E01.1080p.REPACK"] := by
  refine ⟨by decide, by decide, by decide, by decide⟩

/-- C9: in placeholder mode an item that fails the interest's filters
is still inserted into the seen ledger under its
source:interest:item key, and is afterwards a complete no-op for any
interest with the same id (filters may differ) in any larger ledger
state; in standard mode an item matching no interest leaves the state
completely unchanged, so nothing is inserted. -/
theorem c9_unmatched_item_ledger_asymmetry :
    (∀ rm src interest item now (st : MatchState),
        seenContains st.seen_items (interest_key src interest item) = false →
        (item.magnet_uri.isNone && item.torrent_url.isNone) = false →
        evaluate_filters_with_logic rm item interest.filters interest.filter_logic
          = none →
        process_item_for_interest rm src interest item true now st
          = (0, { st with
                  seen_items := (interest_key src interest item, now)
                    :: st.seen_items })
        ∧ ∀ rm2 interest2 now2 (st2 : MatchState),
            interest2.id = interest.id →
            seenSub ((interest_key src interest item, now) :: st.seen_items)
              st2.seen_items →
            process_item_for_interest rm2 src interest2 item true now2 st2
              = (0, st2))
    ∧ (∀ rm src (interests : List Interest) item now (st : MatchState),
        seenContains st.seen_items (dedup_key src item) = false →
        (item.magnet_uri.isNone && item.torrent_url.isNone) = false →
        (∀ i ∈ interests,
          evaluate_filters_with_logic rm item i.filters i.filter_logic = none) →
        process_item rm src interests item now st = (0, st)) := by
  constructor
  · intro rm src interest item now st h1 h2 h3
    constructor
    · simp [process_item_for_interest, h1, h2, h3]
    · intro rm2 interest2 now2 st2 hid hsub
      have hkey : interest_key src interest2 item = interest_key src interest item := by
        simp [interest_key, hid]
      have hmem : seenContains st2.seen_items (interest_key src interest2 item)
          = true := by
        rw [hkey]
        exact hsub _ (seenContains_cons_self _ _ _)
      exact process_item_for_interest_skip (by simpa using hmem)
  · intro rm src interests item now st h1 h2 h3
    have hmi : match_interests rm item (is_quality_upgrade item.title) interests
        st.seen_episodes = none :=
      match_interests_none_iff.mpr
        (fun i hi => fun hf => absurd hf (by simp [h3 i hi]))
    simp [process_item, h1, h2, hmi]

/-- Witness for C9: an "ubuntu" interest against a non-matching item in
placeholder mode (inserted, then a no-op even with emptied filters) and
in standard mode (state unchanged). -/
theorem c9_unmatched_item_ledger_asymmetry_witness :
    process_item_for_interest no_regex
        ⟨"s1", "Feed", "https://x/\x7bsearch\x7d", true, none, none, none, none,
          none, 0, none, false⟩
        ⟨"i1", "Ubuntu", true, [⟨FilterType.MustContain, "ubuntu", true⟩],
          FilterLogic.And, none, false, none⟩
        ⟨"a1", "a1", "debian-12.iso", some "magnet:?xt=abc", none, none, none⟩
        true 4 ⟨[], [], []⟩
      = (0, ⟨[("s1:i1:a1", 4)], [], []⟩)
    ∧ process_item no_regex
        ⟨"s1", "Feed", "https://feed.example/rss", true, none, none, none, none,
          none, 0, none, false⟩
        [⟨"i1", "Ubuntu", true, [⟨FilterType.MustContain, "ubuntu", true⟩],
          FilterLogic.And, none, false, none⟩]
        ⟨"a1", "a1", "debian-12.iso", some "magnet:?xt=abc", none, none, none⟩
        4 ⟨[], [], []⟩
      = (0, ⟨[], [], []⟩) :=
  ⟨(c9_unmatched_item_ledger_asymmetry.1 no_regex _ _ _ 4 _ (by decide) (by decide)
      (by decide)).1,
   c9_unmatched_item_ledger_asymmetry.2 no_regex _ _ _ 4 _ (by decide) (by decide)
     (by decide)⟩

end WhenThen
